import Mathlib

/-!
# Verification of the Room Availability & Booking Admission Engine

A shallow embedding of the booking core of the hotel-backend repository:
the availability query `rooms_ids_for_booking` (src/repositories/utils.py),
the admission path `BookingsRepository.add_booking` /
`BookingService.add_booking` (src/repositories/bookings.py,
src/services/bookings.py), and the generic repository operations
`add` / `edit` / `delete` (src/repositories/base.py).

SQL `date` columns are modelled as integers (any order-preserving encoding
of calendar days, e.g. `yyyymmdd`); all date logic in the source is pure
comparison, so only the order matters.  Tables are modelled as lists of
rows; a SQL query becomes a pure function of those lists.
-/

namespace Booking

/-- A calendar day, order-preservingly encoded as an integer. -/
abbrev Day := Int

/-- Row of the `rooms` table (src/models/rooms.py, `RoomsOrm`). -/
structure RoomsOrm where
  id : Nat
  hotel_id : Nat
  title : String
  description : Option String
  price : Int
  quantity : Int
deriving Repr, DecidableEq

/-- Row of the `hotels` table (src/models/hotels.py, `HotelsOrm`). -/
structure HotelsOrm where
  id : Nat
  title : String
  location : String
deriving Repr, DecidableEq

/-- Row of the `bookings` table (src/models/bookings.py, `BookingsOrm`). -/
structure BookingsOrm where
  id : Nat
  user_id : Nat
  room_id : Nat
  date_from : Day
  date_to : Day
  price : Int
deriving Repr, DecidableEq

/-- The database state visible to the booking core: the three tables and
the next id the store would assign to an inserted booking. -/
structure DBState where
  hotels : List HotelsOrm
  rooms : List RoomsOrm
  bookings : List BookingsOrm
  next_booking_id : Nat
deriving Repr, DecidableEq

/-- Well-formedness of a state: room ids are pairwise distinct (they are a
primary key in the source schema). -/
def DBState.wf (s : DBState) : Prop :=
  (s.rooms.map RoomsOrm.id).Nodup

instance (s : DBState) : Decidable s.wf := by
  unfold DBState.wf; infer_instance

/-- The overlap filter of the `rooms_count` CTE in
`rooms_ids_for_booking` (src/repositories/utils.py lines 17-20):
`BookingsOrm.date_from <= date_to, BookingsOrm.date_to >= date_from`. -/
def overlapFilter (date_from date_to : Day) (b : BookingsOrm) : Bool :=
  decide (b.date_from ≤ date_to) && decide (b.date_to ≥ date_from)

/-- The `rooms_count` CTE: bookings passing the overlap filter, grouped by
`room_id`, with `count("*")` per group.  A GROUP BY result has one row per
distinct key, so the embedding pairs every distinct `room_id` of the
filtered rows with the number of filtered rows carrying it. -/
def rooms_count (date_from date_to : Day) (bookings : List BookingsOrm) :
    List (Nat × Nat) :=
  let filtered := bookings.filter (overlapFilter date_from date_to)
  (filtered.map BookingsOrm.room_id).dedup.map
    (fun rid => (rid, (filtered.filter (fun b => b.room_id == rid)).length))

/-- `coalesce(rooms_count.c.rooms_reserved, 0)` seen from a row of the
outer join: the count grouped under `rid`, or `0` when no group exists. -/
def coalesceReserved (rc : List (Nat × Nat)) (rid : Nat) : Nat :=
  ((rc.find? (fun p => p.1 == rid)).map Prod.snd).getD 0

/-- The `rooms_left_result` CTE (src/repositories/utils.py lines 25-35):
every room outer-joined with its `rooms_count` group, producing
`(rooms_id, quantity - coalesce(rooms_reserved, 0))`. -/
def rooms_left_result (date_from date_to : Day) (s : DBState) :
    List (Nat × Int) :=
  let rc := rooms_count date_from date_to s.bookings
  s.rooms.map (fun r => (r.id, r.quantity - (coalesceReserved rc r.id : Int)))

/-- The `rooms_ids_for_hotel` subquery: ids of all rooms, restricted to a
hotel when `hotel_id` is given. -/
def rooms_ids_for_hotel (hotel_id : Option Nat) (s : DBState) : List Nat :=
  match hotel_id with
  | none => s.rooms.map RoomsOrm.id
  | some h => (s.rooms.filter (fun r => r.hotel_id == h)).map RoomsOrm.id

/-- The final select of `rooms_ids_for_booking`: ids of rooms whose
`rooms_left` is strictly positive and which belong to the hotel scope. -/
def rooms_ids_for_booking (date_from date_to : Day) (hotel_id : Option Nat)
    (s : DBState) : List Nat :=
  ((rooms_left_result date_from date_to s).filter
    (fun p => decide (p.2 > 0) && (rooms_ids_for_hotel hotel_id s).contains p.1)).map
    Prod.fst

/-- `reservedCount` as the spec words it: the number of bookings on
`room_id` with `booking.date_from <= query.date_to` and
`booking.date_to >= query.date_from`. -/
def reservedCount (room_id : Nat) (date_from date_to : Day)
    (bookings : List BookingsOrm) : Nat :=
  bookings.countP
    (fun b => b.room_id == room_id && overlapFilter date_from date_to b)

/-- Number of bookings on `room_id` occupying the single day `d`
(`b.date_from <= d < b.date_to`); the quantity the capacity invariant
bounds. -/
def countDay (bookings : List BookingsOrm) (room_id : Nat) (d : Day) : Nat :=
  bookings.countP
    (fun b => b.room_id == room_id && decide (b.date_from ≤ d) && decide (d < b.date_to))

/-- The central invariant: no room is ever occupied beyond its quantity on
any single day. -/
def capacityInv (s : DBState) : Prop :=
  ∀ r ∈ s.rooms, ∀ d : Day, (countDay s.bookings r.id d : Int) ≤ r.quantity

/-- Modelled from the spec: the `BookingAddRequest` schema
(src/schemas/bookings.py is absent from the tree; per the spec's external
interface, the caller supplies `room_id`, `date_from`, `date_to` with no
cross-field validation on the admission path). -/
structure BookingAddRequest where
  room_id : Nat
  date_from : Day
  date_to : Day
deriving Repr, DecidableEq

/-- Modelled from the spec: the full `BookingAdd` schema the service
builds — the request plus `user_id` and the snapshotted `price`
(src/services/bookings.py line 87). -/
structure BookingAdd where
  user_id : Nat
  room_id : Nat
  date_from : Day
  date_to : Day
  price : Int
deriving Repr, DecidableEq

/-- `BaseRepository.add` specialised to bookings: INSERT the row with the
store-assigned id and RETURNING the inserted row. -/
def BookingsRepository.add (s : DBState) (data : BookingAdd) :
    DBState × BookingsOrm :=
  let row : BookingsOrm :=
    { id := s.next_booking_id
      user_id := data.user_id
      room_id := data.room_id
      date_from := data.date_from
      date_to := data.date_to
      price := data.price }
  ({ s with bookings := s.bookings ++ [row]
            next_booking_id := s.next_booking_id + 1 }, row)

/-- The repository-level errors the admission path can raise. -/
inductive RepoError where
  | allRoomsAreBooked
deriving Repr, DecidableEq

/-- `BookingsRepository.add_booking` (src/repositories/bookings.py lines
47-80): run `rooms_ids_for_booking` scoped to `hotel_id`; insert the
booking when `data.room_id` is among the returned ids, otherwise raise
`AllRoomsAreBookedException`. -/
def BookingsRepository.add_booking (s : DBState) (data : BookingAdd)
    (hotel_id : Nat) : Except RepoError (DBState × BookingsOrm) :=
  let rooms_ids_to_book :=
    rooms_ids_for_booking data.date_from data.date_to (some hotel_id) s
  if rooms_ids_to_book.contains data.room_id then
    .ok (BookingsRepository.add s data)
  else
    .error .allRoomsAreBooked

/-- The caller-facing outcomes of `BookingService.add_booking`:
`RoomNotFoundHTTPException`, `AllRoomsAreBookedHTTPException`, or an
uncaught `ObjectNotFoundException` should the room's hotel be missing. -/
inductive AdmissionError where
  | roomNotFound
  | noCapacity
  | objectNotFound
deriving Repr, DecidableEq

/-- `BookingService.add_booking` (src/services/bookings.py lines 54-92):
resolve the room (absent → `RoomNotFound`), resolve its hotel, snapshot
`room.price` into the `BookingAdd` payload, and delegate to
`BookingsRepository.add_booking`, mapping `AllRoomsAreBookedException` to
the `NoCapacity` outcome.  No date-order validation appears on this
path. -/
def BookingService.add_booking (s : DBState) (user_id : Nat)
    (booking_data : BookingAddRequest) :
    Except AdmissionError (DBState × BookingsOrm) :=
  match s.rooms.find? (fun r => r.id == booking_data.room_id) with
  | none => .error .roomNotFound
  | some room =>
    match s.hotels.find? (fun h => h.id == room.hotel_id) with
    | none => .error .objectNotFound
    | some hotel =>
      match BookingsRepository.add_booking s
          { user_id := user_id
            room_id := booking_data.room_id
            date_from := booking_data.date_from
            date_to := booking_data.date_to
            price := room.price } hotel.id with
      | .ok res => .ok res
      | .error .allRoomsAreBooked => .error .noCapacity

/-- `BaseRepository.edit` specialised to bookings with `filter_by id` and
full data (src/repositories/base.py lines 116-147): an unconditional
UPDATE of every row matching the filter. -/
def BookingsRepository.edit (s : DBState) (data : BookingAdd) (id : Nat) :
    DBState :=
  { s with
    bookings := s.bookings.map (fun b =>
      if b.id == id then
        { b with user_id := data.user_id, room_id := data.room_id,
                 date_from := data.date_from, date_to := data.date_to,
                 price := data.price }
      else b) }

/-- `BaseRepository.delete` specialised to bookings with `filter_by id`
(src/repositories/base.py lines 149-169): an unconditional DELETE. -/
def BookingsRepository.delete (s : DBState) (id : Nat) : DBState :=
  { s with bookings := s.bookings.filter (fun b => !(b.id == id)) }

/-- The `RoomAdd` schema (src/schemas/rooms.py): payload of a room edit. -/
structure RoomAdd where
  hotel_id : Nat
  title : String
  description : Option String
  price : Int
  quantity : Int
deriving Repr, DecidableEq

/-- `BaseRepository.edit` specialised to rooms with `filter_by id`: an
unconditional UPDATE of the `rooms` table; the `bookings` table is not
touched by the statement. -/
def RoomsRepository.edit (s : DBState) (data : RoomAdd) (id : Nat) :
    DBState :=
  { s with
    rooms := s.rooms.map (fun r =>
      if r.id == id then
        { r with hotel_id := data.hotel_id, title := data.title,
                 description := data.description, price := data.price,
                 quantity := data.quantity }
      else r) }

/-- `check_date_to_after_date_from` (src/exceptions.py lines 43-57):
`true` exactly when the validator raises HTTP 422, i.e. when
`date_to <= date_from`.  It is called on the hotel/room listing paths
(src/services/hotels.py line 53, src/services/rooms.py line 67) and
nowhere on the admission path. -/
def check_date_to_after_date_from_raises (date_from date_to : Day) : Bool :=
  decide (date_to ≤ date_from)

/-- One step of the system as the claims describe it: an admitted booking
(through `BookingService.add_booking`) or an unconditional deletion. -/
inductive Step : DBState → DBState → Prop where
  | admitted (user_id : Nat) (req : BookingAddRequest) (s s' : DBState)
      (b : BookingsOrm)
      (h : BookingService.add_booking s user_id req = .ok (s', b)) :
      Step s s'
  | delete (s : DBState) (id : Nat) :
      Step s (BookingsRepository.delete s id)

/-! ## Lemmas about the grouped count -/

theorem find?_keyed_map_of_mem {l : List Nat} {rid : Nat} (f : Nat → Nat)
    (h : rid ∈ l) :
    (l.map (fun x => (x, f x))).find? (fun p => p.1 == rid) =
      some (rid, f rid) := by
  induction l with
  | nil => cases h
  | cons a t ih =>
    by_cases ha : a = rid
    · subst ha
      rw [List.map_cons, List.find?_cons_of_pos]
      simp
    · rcases List.mem_cons.mp h with h1 | h2
      · exact absurd h1.symm ha
      · rw [List.map_cons, List.find?_cons_of_neg, ih h2]
        simpa using ha

theorem find?_keyed_map_of_not_mem {l : List Nat} {rid : Nat} (f : Nat → Nat)
    (h : rid ∉ l) :
    (l.map (fun x => (x, f x))).find? (fun p => p.1 == rid) = none := by
  rw [List.find?_eq_none]
  intro x hx
  rcases List.mem_map.mp hx with ⟨a, ha, rfl⟩
  simp only [beq_iff_eq]
  intro hax
  exact h (hax ▸ ha)

/-- The value the outer join's `coalesce` produces for a room is exactly
the direct overlap count of that room's bookings. -/
theorem coalesceReserved_rooms_count (qf qt : Day) (bk : List BookingsOrm)
    (rid : Nat) :
    coalesceReserved (rooms_count qf qt bk) rid = reservedCount rid qf qt bk := by
  unfold coalesceReserved rooms_count reservedCount
  simp only []
  set fl := bk.filter (overlapFilter qf qt) with hfl
  by_cases hmem : rid ∈ (fl.map BookingsOrm.room_id).dedup
  · rw [find?_keyed_map_of_mem
      (fun x => (fl.filter (fun b => b.room_id == x)).length) hmem]
    simp only [Option.map_some', Option.getD_some]
    rw [List.countP_eq_length_filter, hfl, List.filter_filter]
  · rw [find?_keyed_map_of_not_mem
      (fun x => (fl.filter (fun b => b.room_id == x)).length) hmem]
    simp only [Option.map_none', Option.getD_none]
    symm
    rw [List.countP_eq_zero]
    intro b hb hcontra
    simp only [Bool.and_eq_true] at hcontra
    obtain ⟨hrid, hover⟩ := hcontra
    refine hmem (List.mem_dedup.mpr (List.mem_map.mpr
      ⟨b, List.mem_filter.mpr ⟨hb, hover⟩, beq_iff_eq.mp hrid⟩))

/-- C2: for every `room_id` and query range, the reserved count the
availability query computes (the `rooms_count` group for the room, with
`coalesce(_, 0)` for absent groups) equals the number of existing bookings
on that room satisfying `booking.date_from <= query.date_to` and
`booking.date_to >= query.date_from`, and it is a non-negative integer. -/
theorem reservedCount_rule (room_id : Nat) (date_from date_to : Day)
    (bookings : List BookingsOrm) :
    coalesceReserved (rooms_count date_from date_to bookings) room_id =
      (bookings.filter (fun b => b.room_id == room_id &&
        decide (b.date_from ≤ date_to) && decide (b.date_to ≥ date_from))).length ∧
    0 ≤ (coalesceReserved (rooms_count date_from date_to bookings) room_id : Int) := by
  constructor
  · rw [coalesceReserved_rooms_count]
    unfold reservedCount overlapFilter
    rw [List.countP_eq_length_filter]
    simp only [Bool.and_assoc]
  · exact Int.ofNat_nonneg _

/-- Two rooms of a well-formed state with the same id are the same row. -/
theorem room_eq_of_id_eq {s : DBState} (hwf : s.wf) {r r' : RoomsOrm}
    (hr : r ∈ s.rooms) (hr' : r' ∈ s.rooms) (h : r.id = r'.id) : r = r' :=
  List.inj_on_of_nodup_map hwf hr hr' h

/-- Helper for the availability characterization: every room contributes
its `(id, quantity - reservedCount)` row to the `rooms_left_result` CTE. -/
theorem rooms_left_result_row (s : DBState) (date_from date_to : Day) :
    ∀ r ∈ s.rooms,
      (r.id, r.quantity - (reservedCount r.id date_from date_to s.bookings : Int)) ∈
        rooms_left_result date_from date_to s := by
  intro r hr
  unfold rooms_left_result
  refine List.mem_map.mpr ⟨r, hr, ?_⟩
  rw [coalesceReserved_rooms_count]

/-- Helper: membership in the availability query's result, characterized
against the direct reserved count. -/
theorem mem_rooms_ids_for_booking (s : DBState) (date_from date_to : Day)
    (hotel_id : Nat) (hwf : s.wf) (rid : Nat) :
    rid ∈ rooms_ids_for_booking date_from date_to (some hotel_id) s ↔
      ∃ r ∈ s.rooms, r.id = rid ∧ r.hotel_id = hotel_id ∧
        (0 : Int) < r.quantity - (reservedCount r.id date_from date_to s.bookings : Int) := by
  constructor
  · intro hmem
    unfold rooms_ids_for_booking at hmem
    rcases List.mem_map.mp hmem with ⟨p, hpf, hp1⟩
    rcases List.mem_filter.mp hpf with ⟨hpin, hP⟩
    simp only [Bool.and_eq_true, decide_eq_true_eq] at hP
    obtain ⟨hpos, hcont⟩ := hP
    unfold rooms_left_result at hpin
    rcases List.mem_map.mp hpin with ⟨r, hr, hpr⟩
    have hcont' : p.1 ∈ rooms_ids_for_hotel (some hotel_id) s :=
      List.elem_iff.mp hcont
    unfold rooms_ids_for_hotel at hcont'
    rcases List.mem_map.mp hcont' with ⟨r', hr'f, hr'id⟩
    rcases List.mem_filter.mp hr'f with ⟨hr', hr'h⟩
    have hid : r.id = r'.id := by
      have h1 : p.1 = r.id := by rw [← hpr]
      omega
    have : r = r' := room_eq_of_id_eq hwf hr hr' hid
    subst this
    refine ⟨r, hr, ?_, beq_iff_eq.mp hr'h, ?_⟩
    · rw [hr'id, hp1]
    · have hp2 : p.2 = r.quantity -
          (reservedCount r.id date_from date_to s.bookings : Int) := by
        rw [← hpr]
        simp only
        rw [coalesceReserved_rooms_count]
      rw [← hp2]
      exact hpos
  · rintro ⟨r, hr, rfl, hh, hpos⟩
    unfold rooms_ids_for_booking
    refine List.mem_map.mpr
      ⟨(r.id, r.quantity - (reservedCount r.id date_from date_to s.bookings : Int)),
       List.mem_filter.mpr ⟨rooms_left_result_row s date_from date_to r hr, ?_⟩, rfl⟩
    simp only [Bool.and_eq_true, decide_eq_true_eq]
    refine ⟨hpos, List.elem_iff.mpr ?_⟩
    unfold rooms_ids_for_hotel
    refine List.mem_map.mpr ⟨r, List.mem_filter.mpr ⟨hr, ?_⟩, rfl⟩
    exact beq_iff_eq.mpr hh

/-- C6: every room contributes the row
`(room.id, quantity - reservedCount)` to the `rooms_left_result` CTE (a
room with no overlapping booking contributing `reservedCount = 0` through
the outer join and `coalesce`), and the availability query returns
exactly the ids of rooms of the hotel whose `rooms_left` is strictly
positive. -/
theorem rooms_ids_for_booking_spec (s : DBState) (date_from date_to : Day)
    (hotel_id : Nat) (hwf : s.wf) :
    (∀ r ∈ s.rooms,
      (r.id, r.quantity - (reservedCount r.id date_from date_to s.bookings : Int)) ∈
        rooms_left_result date_from date_to s) ∧
    (∀ rid : Nat,
      rid ∈ rooms_ids_for_booking date_from date_to (some hotel_id) s ↔
      ∃ r ∈ s.rooms, r.id = rid ∧ r.hotel_id = hotel_id ∧
        (0 : Int) < r.quantity - (reservedCount r.id date_from date_to s.bookings : Int)) :=
  ⟨rooms_left_result_row s date_from date_to,
   mem_rooms_ids_for_booking s date_from date_to hotel_id hwf⟩

/-! ## Lemmas about the admission path -/

/-- Inversion of a successful `BookingService.add_booking`: the tables it
leaves alone, the inserted row, and the availability membership the
insertion was guarded by. -/
theorem add_booking_ok_inv {s s' : DBState} {user_id : Nat}
    {req : BookingAddRequest} {b : BookingsOrm}
    (h : BookingService.add_booking s user_id req = .ok (s', b)) :
    s'.hotels = s.hotels ∧ s'.rooms = s.rooms ∧
    s'.bookings = s.bookings ++ [b] ∧
    b.room_id = req.room_id ∧ b.date_from = req.date_from ∧
    b.date_to = req.date_to ∧ b.user_id = user_id ∧
    ∃ room ∈ s.rooms, room.id = req.room_id ∧ b.price = room.price ∧
      req.room_id ∈ rooms_ids_for_booking req.date_from req.date_to
        (some room.hotel_id) s := by
  unfold BookingService.add_booking at h
  split at h
  · cases h
  next room hfr =>
    split at h
    · cases h
    next hotel hfh =>
      have hhid : hotel.id = room.hotel_id := by
        have := List.find?_some hfh
        simpa using this
      have hrid : room.id = req.room_id := by
        have := List.find?_some hfr
        simpa using this
      have hrmem : room ∈ s.rooms := List.mem_of_find?_eq_some hfr
      split at h
      next res hres =>
        injection h with h'
        subst h'
        unfold BookingsRepository.add_booking at hres
        dsimp only at hres
        split at hres
        next hc =>
          injection hres with hres'
          unfold BookingsRepository.add at hres'
          dsimp only at hres'
          rw [Prod.mk.injEq] at hres'
          obtain ⟨hS, hR⟩ := hres'
          subst hS
          subst hR
          refine ⟨rfl, rfl, rfl, rfl, rfl, rfl, rfl,
            room, hrmem, hrid, rfl, ?_⟩
          rw [← hhid]
          exact List.elem_iff.mp hc
        next => cases hres
      next hres => cases h

/-- Inversion of `BookingService.add_booking` ending in `NoCapacity`: the
room and hotel were resolved and the availability membership failed. -/
theorem add_booking_noCapacity_inv {s : DBState} {user_id : Nat}
    {req : BookingAddRequest}
    (h : BookingService.add_booking s user_id req = .error .noCapacity) :
    ∃ room ∈ s.rooms, room.id = req.room_id ∧
      req.room_id ∉ rooms_ids_for_booking req.date_from req.date_to
        (some room.hotel_id) s := by
  unfold BookingService.add_booking at h
  split at h
  · cases h
  next room hfr =>
    split at h
    · cases h
    next hotel hfh =>
      have hhid : hotel.id = room.hotel_id := by
        have := List.find?_some hfh
        simpa using this
      have hrid : room.id = req.room_id := by
        have := List.find?_some hfr
        simpa using this
      have hrmem : room ∈ s.rooms := List.mem_of_find?_eq_some hfr
      split at h
      next res hres => cases h
      next hres =>
        unfold BookingsRepository.add_booking at hres
        dsimp only at hres
        split at hres
        next hc => cases hres
        next hc =>
          refine ⟨room, hrmem, hrid, ?_⟩
          rw [← hhid]
          intro hmem
          exact hc (List.elem_iff.mpr hmem)

/-- A single day's occupancy is bounded by the reserved count of any
query range containing that day. -/
theorem countDay_le_reservedCount (bk : List BookingsOrm) (rid : Nat)
    (d date_from date_to : Day) (h1 : date_from ≤ d) (h2 : d < date_to) :
    countDay bk rid d ≤ reservedCount rid date_from date_to bk := by
  unfold countDay reservedCount overlapFilter
  refine List.countP_mono_left ?_
  intro b _ hb
  simp only [Bool.and_eq_true, decide_eq_true_eq] at hb ⊢
  obtain ⟨⟨hridb, hf⟩, ht⟩ := hb
  exact ⟨hridb, hf.trans h2.le, h1.trans ht.le⟩

/-- Occupancy splits over an appended booking list. -/
theorem countDay_append (bk₁ bk₂ : List BookingsOrm) (rid : Nat) (d : Day) :
    countDay (bk₁ ++ bk₂) rid d = countDay bk₁ rid d + countDay bk₂ rid d :=
  List.countP_append _ bk₁ bk₂

/-- Occupancy of a single booking. -/
theorem countDay_singleton (b : BookingsOrm) (rid : Nat) (d : Day) :
    countDay [b] rid d =
      if b.room_id = rid ∧ b.date_from ≤ d ∧ d < b.date_to then 1 else 0 := by
  unfold countDay
  rw [show ([b] : List BookingsOrm) = b :: [] from rfl, List.countP_cons,
    List.countP_nil]
  by_cases h1 : b.room_id = rid <;> by_cases h2 : b.date_from ≤ d <;>
    by_cases h3 : d < b.date_to <;> simp [h1, h2, h3]

/-- A successful admission preserves well-formedness and the capacity
invariant: on any day the new booking occupies, the old occupancy was
strictly below quantity because the availability check passed. -/
theorem capacityInv_preserved_admitted {s s' : DBState} {user_id : Nat}
    {req : BookingAddRequest} {b : BookingsOrm}
    (hwf : s.wf) (hinv : capacityInv s)
    (h : BookingService.add_booking s user_id req = .ok (s', b)) :
    s'.wf ∧ capacityInv s' := by
  obtain ⟨hhot, hrooms, hbk, hbrid, hbf, hbt, hbu, room, hrm, hrmid, hbp, hmem⟩ :=
    add_booking_ok_inv h
  constructor
  · unfold DBState.wf
    rw [hrooms]
    exact hwf
  · intro r hr d
    rw [hrooms] at hr
    rw [hbk, countDay_append, countDay_singleton]
    by_cases hc : b.room_id = r.id ∧ b.date_from ≤ d ∧ d < b.date_to
    · rw [if_pos hc]
      obtain ⟨hc1, hc2, hc3⟩ := hc
      rcases (mem_rooms_ids_for_booking s req.date_from req.date_to
          room.hotel_id hwf req.room_id).mp hmem with ⟨r', hr', hr'id, _, hpos⟩
      have hrr' : r = r' :=
        room_eq_of_id_eq hwf hr hr' (by rw [hr'id, ← hbrid, ← hc1])
      subst hrr'
      have hday : countDay s.bookings r.id d ≤
          reservedCount r.id req.date_from req.date_to s.bookings := by
        refine countDay_le_reservedCount _ _ _ _ _ ?_ ?_
        · rw [← hbf]; exact hc2
        · rw [← hbt]; exact hc3
      push_cast
      omega
    · rw [if_neg hc, Nat.add_zero]
      exact hinv r hr d

/-- A deletion preserves well-formedness and the capacity invariant:
occupancy only decreases. -/
theorem capacityInv_preserved_delete (s : DBState) (id : Nat)
    (hwf : s.wf) (hinv : capacityInv s) :
    (BookingsRepository.delete s id).wf ∧
      capacityInv (BookingsRepository.delete s id) := by
  refine ⟨hwf, ?_⟩
  intro r hr d
  refine le_trans ?_ (hinv r hr d)
  exact_mod_cast List.Sublist.countP_le _ (List.filter_sublist _)

/-- C1: starting from a well-formed state with non-negative quantities in
which no room is over-occupied on any day, every state reachable through
admitted bookings (`BookingService.add_booking`) and unconditional
deletions still has, for every room and every day, at most `quantity`
bookings covering that day. -/
theorem capacity_invariant_reachable (s₀ s : DBState)
    (hwf : s₀.wf) (_hq : ∀ r ∈ s₀.rooms, 0 ≤ r.quantity)
    (hinv : capacityInv s₀)
    (h : Relation.ReflTransGen Step s₀ s) : capacityInv s := by
  suffices hsuff : s.wf ∧ capacityInv s from hsuff.2
  induction h with
  | refl => exact ⟨hwf, hinv⟩
  | tail hst step ih =>
    obtain ⟨hwf', hinv'⟩ := ih
    cases step with
    | admitted uid req s s' b hadd => exact capacityInv_preserved_admitted hwf' hinv' hadd
    | delete s i => exact capacityInv_preserved_delete _ i hwf' hinv'

/-! ## Remaining claim theorems and concrete fixtures -/

/-- Fixture: a hotel. -/
def exHotel : HotelsOrm := { id := 1, title := "Hotel", location := "Loc" }

/-- Fixture: a room of `exHotel` with a single unit. -/
def exRoom : RoomsOrm :=
  { id := 1, hotel_id := 1, title := "Room", description := none,
    price := 100, quantity := 1 }

/-- Fixture: the state with one hotel, one quantity-1 room, no bookings. -/
def exState : DBState :=
  { hotels := [exHotel], rooms := [exRoom], bookings := [], next_booking_id := 1 }

/-- Fixture: the booking row admitting `[2026-03-01, 2026-03-05)` on the
room inserts (dates written `yyyymmdd`). -/
def exRow1 : BookingsOrm :=
  { id := 1, user_id := 7, room_id := 1, date_from := 20260301,
    date_to := 20260305, price := 100 }

/-- Fixture: `exState` after that booking was admitted. -/
def exState1 : DBState :=
  { hotels := [exHotel], rooms := [exRoom], bookings := [exRow1],
    next_booking_id := 2 }

/-- C4: when the requested room resolves and its hotel exists, the call
persists the booking row — with the price snapshotted from the room — if
the room's id is among the availability query's ids for the requested
range, and returns the `NoCapacity` error (producing no state, hence
inserting nothing) if it is not. -/
theorem admission_decision (s : DBState) (user_id : Nat)
    (req : BookingAddRequest) (room : RoomsOrm)
    (hfind : s.rooms.find? (fun r => r.id == req.room_id) = some room)
    (hhot : (s.hotels.find? (fun h => h.id == room.hotel_id)).isSome) :
    (req.room_id ∈ rooms_ids_for_booking req.date_from req.date_to
        (some room.hotel_id) s →
      BookingService.add_booking s user_id req =
        .ok ({ s with
                bookings := s.bookings ++
                  [{ id := s.next_booking_id, user_id := user_id,
                     room_id := req.room_id, date_from := req.date_from,
                     date_to := req.date_to, price := room.price }]
                next_booking_id := s.next_booking_id + 1 },
             { id := s.next_booking_id, user_id := user_id,
               room_id := req.room_id, date_from := req.date_from,
               date_to := req.date_to, price := room.price })) ∧
    (req.room_id ∉ rooms_ids_for_booking req.date_from req.date_to
        (some room.hotel_id) s →
      BookingService.add_booking s user_id req = .error .noCapacity) := by
  obtain ⟨hotel, hfh⟩ := Option.isSome_iff_exists.mp hhot
  have hhid : hotel.id = room.hotel_id := by
    have := List.find?_some hfh
    simpa using this
  constructor
  · intro hmem
    unfold BookingService.add_booking
    simp only [hfind, hfh]
    unfold BookingsRepository.add_booking
    dsimp only
    rw [hhid, if_pos (List.elem_iff.mpr hmem)]
    rfl
  · intro hmem
    unfold BookingService.add_booking
    simp only [hfind, hfh]
    unfold BookingsRepository.add_booking
    dsimp only
    rw [hhid, if_neg (fun hc => hmem (List.elem_iff.mp hc))]

/-- C4 witness: on the empty fixture the touch-free request is a member
of the availability ids and is persisted with the snapshotted price. -/
theorem admission_decision_witness :
    BookingService.add_booking exState 7 ⟨1, 20260301, 20260305⟩ =
      .ok (exState1, exRow1) :=
  (admission_decision exState 7 ⟨1, 20260301, 20260305⟩ exRoom
    rfl rfl).1 (by decide)

/-- C9: the admitted booking's price is the per-night price of the room at
admission time, and a later edit of the room record (through the generic
rooms UPDATE, whatever fields it changes) leaves the bookings table — and
hence every field of the persisted booking — unchanged. -/
theorem price_snapshot_frame (s s' : DBState) (user_id : Nat)
    (req : BookingAddRequest) (b : BookingsOrm)
    (h : BookingService.add_booking s user_id req = .ok (s', b)) :
    (∃ room ∈ s.rooms, room.id = req.room_id ∧ b.price = room.price) ∧
    ∀ (data : RoomAdd) (rid : Nat),
      (RoomsRepository.edit s' data rid).bookings = s'.bookings ∧
      b ∈ (RoomsRepository.edit s' data rid).bookings := by
  obtain ⟨hhot, hrooms, hbk, hbrid, hbf, hbt, hbu, room, hrm, hrmid, hbp, hmem⟩ :=
    add_booking_ok_inv h
  refine ⟨⟨room, hrm, hrmid, hbp⟩, fun data rid => ⟨rfl, ?_⟩⟩
  rw [show (RoomsRepository.edit s' data rid).bookings = s'.bookings from rfl,
    hbk]
  exact List.mem_append_right _ (List.mem_singleton_self b)

/-- C9 witness: after the concrete admission, editing the room's price to
999 leaves the bookings table untouched. -/
theorem price_snapshot_frame_witness :
    (RoomsRepository.edit exState1 ⟨1, "Room", none, 999, 1⟩ 1).bookings =
      exState1.bookings :=
  ((price_snapshot_frame exState exState1 7 ⟨1, 20260301, 20260305⟩ exRow1
    rfl).2 ⟨1, "Room", none, 999, 1⟩ 1).1

/-- C8: a call whose `room_id` resolves to no room fails with
`RoomNotFound` and produces no state; because `BookingService.add_booking`
is a function of the state, re-running the identical call against the
unchanged state returns the identical `RoomNotFound` outcome — it can
never succeed or change outcome while the state is unchanged. -/
theorem roomNotFound_stable (s : DBState) (user_id : Nat)
    (req : BookingAddRequest)
    (hnone : s.rooms.find? (fun r => r.id == req.room_id) = none) :
    BookingService.add_booking s user_id req = .error .roomNotFound ∧
    ∀ s' b, BookingService.add_booking s user_id req ≠ .ok (s', b) := by
  have hres : BookingService.add_booking s user_id req = .error .roomNotFound := by
    unfold BookingService.add_booking
    simp only [hnone]
  exact ⟨hres, fun s' b hok => by rw [hres] at hok; cases hok⟩

/-- C8 witness: requesting the missing room 2 of the fixture fails with
`RoomNotFound`. -/
theorem roomNotFound_stable_witness :
    BookingService.add_booking exState 7 ⟨2, 20260301, 20260305⟩ =
      .error .roomNotFound :=
  (roomNotFound_stable exState 7 ⟨2, 20260301, 20260305⟩ rfl).1

/-- C1 witness: the initial fixture is well-formed, has non-negative
quantities and an empty bookings table, and one admitted step reaches
`exState1`, where the theorem bounds day 2026-03-01's occupancy by 1. -/
theorem capacity_invariant_reachable_witness :
    (countDay exState1.bookings 1 20260301 : Int) ≤ 1 := by
  have h := capacity_invariant_reachable exState exState1 (by decide)
    (by decide)
    (fun r hr d => by
      rcases List.mem_singleton.mp hr with rfl
      simp [countDay, exState, exRoom])
    (Relation.ReflTransGen.single
      (Step.admitted 7 ⟨1, 20260301, 20260305⟩ exState exState1 exRow1 rfl))
  exact h exRoom (by decide) 20260301

/-- C6 witness: the fixture after one booking is well-formed, and for a
disjoint later range the room is available via the characterization. -/
theorem rooms_ids_for_booking_spec_witness :
    1 ∈ rooms_ids_for_booking 20270101 20270105 (some 1) exState1 :=
  ((rooms_ids_for_booking_spec exState1 20270101 20270105 1 (by decide)).2 1).mpr
    ⟨exRoom, by decide, by decide, by decide, by decide⟩

/-- C3 counterexample: on a quantity-1 room with no other bookings,
admitting `[2026-03-01, 2026-03-05)` and then requesting
`[2026-03-05, 2026-03-10)` does NOT admit both: the second call returns
`NoCapacity`, because the source's overlap filter
(`date_from <= query.date_to AND date_to >= query.date_from`) counts the
touching booking (`20260305 >= 20260305`). -/
theorem touching_ranges_counterexample :
    BookingService.add_booking exState 7 ⟨1, 20260301, 20260305⟩ =
      .ok (exState1, exRow1) ∧
    BookingService.add_booking exState1 7 ⟨1, 20260305, 20260310⟩ =
      .error .noCapacity :=
  ⟨rfl, rfl⟩

/-- C3 amended: with `quantity = 1`, a booking `[2026-03-01, 2026-03-05)`
followed by a request for the touching range `[2026-03-05, 2026-03-10)`
admits the first and rejects the second with `NoCapacity`: the inclusive
filter counts the touching booking once, leaving `rooms_left = 0` and the
availability set empty. -/
theorem touching_ranges_amended :
    reservedCount 1 20260305 20260310 exState1.bookings = 1 ∧
    rooms_ids_for_booking 20260305 20260310 (some 1) exState1 = [] ∧
    BookingService.add_booking exState1 7 ⟨1, 20260305, 20260310⟩ =
      .error .noCapacity :=
  ⟨by decide, by decide, rfl⟩

/-- Fixture: a booking on days `[0, 5)` of the quantity-1 room. -/
def exBooking1 : BookingsOrm :=
  { id := 1, user_id := 7, room_id := 1, date_from := 0, date_to := 5,
    price := 100 }

/-- Fixture: a booking on the disjoint days `[10, 15)` of the same room. -/
def exBooking2 : BookingsOrm :=
  { id := 2, user_id := 7, room_id := 1, date_from := 10, date_to := 15,
    price := 100 }

/-- Fixture: the quantity-1 room holding the two disjoint bookings — a
state satisfying the capacity invariant. -/
def exStateTwo : DBState :=
  { hotels := [exHotel], rooms := [exRoom],
    bookings := [exBooking1, exBooking2], next_booking_id := 3 }

/-- C7 counterexample: editing booking 2 of the invariant-satisfying
fixture onto days `[0, 5)` — a change that drives day 0's occupancy to 2
on a quantity-1 room — is applied by the edit path rather than rejected:
`BaseRepository.edit` is an unconditional UPDATE with no capacity check,
so the resulting state violates the capacity invariant. -/
theorem edit_no_recheck_counterexample :
    countDay exStateTwo.bookings 1 0 = 1 ∧
    (BookingsRepository.edit exStateTwo ⟨7, 1, 0, 5, 100⟩ 2).bookings =
      [exBooking1,
       { id := 2, user_id := 7, room_id := 1, date_from := 0, date_to := 5,
         price := 100 }] ∧
    countDay (BookingsRepository.edit exStateTwo ⟨7, 1, 0, 5, 100⟩ 2).bookings
      1 0 = 2 ∧
    ¬ capacityInv (BookingsRepository.edit exStateTwo ⟨7, 1, 0, 5, 100⟩ 2) := by
  refine ⟨by decide, by decide, by decide, fun hcap => ?_⟩
  have h := hcap exRoom (by decide) 0
  revert h
  decide

/-- C7 amended: an edit of an existing booking is applied unconditionally
— the matching row is overwritten with the new values with no capacity
check and no exclusion of the edited booking from any count; in
particular an edit that would exceed capacity is still applied. -/
theorem edit_unconditional (s : DBState) (data : BookingAdd) (i : Nat)
    (b : BookingsOrm) (hb : b ∈ s.bookings) (hid : b.id = i) :
    { b with user_id := data.user_id, room_id := data.room_id,
             date_from := data.date_from, date_to := data.date_to,
             price := data.price } ∈
      (BookingsRepository.edit s data i).bookings := by
  unfold BookingsRepository.edit
  refine List.mem_map.mpr ⟨b, hb, ?_⟩
  rw [if_pos (beq_iff_eq.mpr hid)]

/-- C7 amended witness: the over-capacity edit of booking 2 is applied. -/
theorem edit_unconditional_witness :
    ({ id := 2, user_id := 7, room_id := 1, date_from := 0, date_to := 5,
       price := 100 } : BookingsOrm) ∈
      (BookingsRepository.edit exStateTwo ⟨7, 1, 0, 5, 100⟩ 2).bookings :=
  edit_unconditional exStateTwo ⟨7, 1, 0, 5, 100⟩ 2 exBooking2 (by decide) rfl

/-- Fixture: the booking row an out-of-order request persists. -/
def exBadRow : BookingsOrm :=
  { id := 1, user_id := 7, room_id := 1, date_from := 20260305,
    date_to := 20260301, price := 100 }

/-- C10: no date-order validation on the admission path: the request
`date_from = 2026-03-05, date_to = 2026-03-01` — which the
`check_date_to_after_date_from` validator of the listing paths would
reject with HTTP 422 — passes the capacity check on the empty fixture and
is persisted as a booking with `date_from > date_to`. -/
theorem no_date_order_validation :
    check_date_to_after_date_from_raises 20260305 20260301 = true ∧
    BookingService.add_booking exState 7 ⟨1, 20260305, 20260301⟩ =
      .ok ({ hotels := [exHotel], rooms := [exRoom], bookings := [exBadRow],
             next_booking_id := 2 }, exBadRow) ∧
    exBadRow.date_to < exBadRow.date_from :=
  ⟨by decide, rfl, by decide⟩

end Booking
